import Mathlib

/-!
Verification of a Go Redis server implementation (codecrafters-redis-go).

The development shallowly embeds the two relevant packages:

* `internal/utils/resp.go` : the RESP wire-protocol decoder (`ParseResp` and
  its helpers) and encoder (`EncodeResp` and its helpers).  Byte buffers are
  modelled as `List Char` (all protocol traffic is ASCII, where Go bytes and
  Lean characters coincide); Go `string` values are Lean `String`s.
* `app/server.go` : the store (`safeCache`), streams (`Stream.append`,
  `Stream.top`), the command handlers (`handleCommand` and the per-command
  functions), the replica gating predicate (`replicaMustRespond`) and the
  per-frame body of the connection loop (`handleClientConn`).

Go code that can fail is modelled explicitly: a function that may panic
(out-of-range slice index, failed type assertion on an `any` value) returns a
result type with a `panic` constructor, and a function returning
`([]byte, error)` returns `err` for the error case.  Mutation of the global
state (`cache`, `node`) is modelled by explicit state passing through a
`ServerState` record.
-/

namespace Redis

/-! ### RESP values (struct `Resp` of resp.go)

The Go struct is `Resp{Content any, DataType RespType}`; the dynamic type of
`Content` is determined by `DataType` (a `string` for simple strings, bulk
strings and errors, an `int` for integers, a `[]Resp` for arrays).  The Go
zero value `Resp{}` (returned by `parseInteger`) is the `empty` constructor. -/

inductive Resp where
  | simple (s : String)
  | bulk (s : String)
  | int (n : Int)
  | array (elems : List Resp)
  | error (s : String)
  | empty

/-- Result of a Go computation that can return an error or panic. -/
inductive PResult (α : Type) where
  | ok (v : α)
  | err (msg : String)
  | panic
deriving DecidableEq, Repr

def CLRF : List Char := ['\r', '\n']

/-! ### The decoder (resp.go lines 28-108) -/

/-- Loop of `parseSimpleString` (line 51): starting from the full remaining
buffer, count the iterations of
`for ; i+1 < len(buf) && buf[i] != CR && buf[i+1] != LF; i++`.
The returned count is the final value of `i`. -/
def ssScan : List Char → Nat
  | c1 :: c2 :: rest => if c1 ≠ '\r' ∧ c2 ≠ '\n' then ssScan (c2 :: rest) + 1 else 0
  | _ => 0

/-- Decoder for `+<data>CRLF` (resp.go lines 49-56), given the buffer after the
type byte.  The source increments `i` once after the scan loop, slices
`buf[:i-2]` (a panic when `i-2` is negative, i.e. when the scan stopped
immediately) and reports `i+3` bytes consumed. -/
def parseSimpleString (buf : List Char) : PResult (Resp × Nat) :=
  match ssScan buf with
  | 0 => .panic
  | k => .ok (.simple (String.mk (buf.take (k - 1))), k + 4)

/-- Digit loop shared by `parseString` and `parseArray`
(`for i < len(buf) && unicode.IsDigit(...) { length = length*10 + ...; i++ }`).
Returns the final `(i, length)`. -/
def lenScan : List Char → Nat → Nat × Nat
  | c :: rest, acc =>
    if c.isDigit then
      let r := lenScan rest (acc * 10 + (c.toNat - '0'.toNat))
      (r.1 + 1, r.2)
    else (0, acc)
  | [], acc => (0, acc)

/-- Decoder for `$<length>CRLF<data>CRLF` (resp.go lines 59-74), given the
buffer after the type byte.  Note the source reports `i + length + 2` bytes
consumed, which does not include the leading `$`. -/
def parseString (buf : List Char) : PResult (Resp × Nat) :=
  let d := lenScan buf 0
  let i := d.1 + 2
  if i + d.2 > buf.length ∨ buf.getD (i - 2) ' ' ≠ '\r' ∨ buf.getD (i - 1) ' ' ≠ '\n' then
    .err "error parsing string. Invalid format"
  else
    .ok (.bulk (String.mk ((buf.drop i).take d.2)), i + d.2 + 2)

/-- Decoder for `:` frames (resp.go lines 76-78): the source is a stub that
returns the zero `Resp` and zero consumed bytes. -/
def parseInteger (_ : List Char) : PResult (Resp × Nat) :=
  .ok (.empty, 0)

/-- Element loop of `parseArray` (resp.go lines 96-104): parse `cnt` elements
starting at index `i`, advancing by `n + 1` bytes per element (the source
comment `TODO LENGTH FROM PARSERESP` marks this adjustment). -/
def parseElems (p : List Char → PResult (Resp × Nat)) (buf : List Char) :
    Nat → Nat → List Resp → PResult (List Resp × Nat)
  | i, 0, acc => .ok (acc, i)
  | i, cnt + 1, acc =>
    match p (buf.drop i) with
    | .ok (el, n) => parseElems p buf (i + n + 1) cnt (acc ++ [el])
    | .err e => .err e
    | .panic => .panic

/-- Decoder for `*<count>CRLF<elements>` (resp.go lines 81-108), given the
buffer after the type byte and the parser to use for elements.  The source
reports `i + 2` consumed bytes after the element loop. -/
def parseArrayF (p : List Char → PResult (Resp × Nat)) (buf : List Char) :
    PResult (Resp × Nat) :=
  let d := lenScan buf 0
  let i := d.1 + 2
  if i ≥ buf.length ∨ buf.getD (i - 2) ' ' ≠ '\r' ∨ buf.getD (i - 1) ' ' ≠ '\n' then
    .err "error parsing array. Invalid format"
  else
    match parseElems p buf i d.2 [] with
    | .ok (els, j) => .ok (.array els, j + 2)
    | .err e => .err e
    | .panic => .panic

/-- Embedding of `ParseResp` (resp.go lines 28-46) with an explicit recursion depth.  The
depth only bounds the nesting of arrays; `ParseResp` below supplies a depth
larger than any possible nesting of its buffer, so the fuel-out `panic` is
never reached from `ParseResp`. -/
def parseRespFuel : Nat → List Char → PResult (Resp × Nat)
  | 0, _ => .panic
  | fuel + 1, buf =>
    match buf with
    | [] => .err "invalid resp"
    | c :: rest =>
      if c = '+' then parseSimpleString rest
      else if c = '$' then parseString rest
      else if c = ':' then parseInteger rest
      else if c = '*' then parseArrayF (fun b => parseRespFuel fuel b) rest
      else .err "unsupported operation"

/-- Embedding of `ParseResp` (resp.go lines 28-46): decode one frame from the front of the
buffer, returning the frame and the reported consumed byte count. -/
def ParseResp (buf : List Char) : PResult (Resp × Nat) :=
  parseRespFuel (buf.length + 1) buf

/-! ### The encoder (resp.go lines 110-170)

No branch of the Go encoder ever returns a non-nil error: the only error
return propagates element errors inside `encodeArray`, and elements cannot
produce one (the `default` branch returns `nil, nil`).  The encoder is
therefore modelled as a total function to byte lists, with the Go `nil`
result of the `default` branch rendered as the empty list. -/

/-- Embedding of `encodeString` (resp.go lines 127-136): `$<len>CRLF<data>CRLF`.  The Go
`len(val)` is the byte length, which for the ASCII payloads of this protocol
equals the character count. -/
def encodeString (val : String) : List Char :=
  '$' :: ((Nat.repr val.length).data ++ CLRF ++ val.data ++ CLRF)

/-- Embedding of `encodeSimpleString` (resp.go lines 138-140). -/
def encodeSimpleString (val : String) : List Char :=
  '+' :: (val.data ++ CLRF)

/-- Embedding of `encodeError` (resp.go lines 142-144). -/
def encodeError (val : String) : List Char :=
  '-' :: (val.data ++ CLRF)

/-- Embedding of `encodeInt` (resp.go lines 164-166). -/
def encodeInt (val : Int) : List Char :=
  ':' :: (val.repr.data ++ CLRF)

mutual

/-- Embedding of `EncodeResp` (resp.go lines 110-125), applied to the `Resp` that holds the
`(Content, DataType)` pair the Go function receives. -/
def EncodeResp : Resp → List Char
  | .simple s => encodeSimpleString s
  | .bulk s => encodeString s
  | .array xs => '*' :: ((Nat.repr xs.length).data ++ CLRF ++ encodeElems xs)
  | .int n => encodeInt n
  | .error s => encodeError s
  | .empty => []

/-- Loop of `encodeArray` (resp.go lines 152-159). -/
def encodeElems : List Resp → List Char
  | [] => []
  | x :: rest => EncodeResp x ++ encodeElems rest

end

/-- Embedding of `EncodeRdb` (resp.go lines 168-170): `$<len>CRLF<content>` with no
trailing CRLF. -/
def EncodeRdb (content : List Char) : List Char :=
  '$' :: ((Nat.repr content.length).data ++ CLRF ++ content)

/-! ### Server data model (server.go lines 19-147) -/

/-- Embedding of `nodeRole` (server.go line 19; values `master` and `slave`). -/
inductive nodeRole where
  | MASTER
  | SLAVE
deriving DecidableEq

/-- Printed form of a role (`fmt` uses the underlying string). -/
def nodeRole.string : nodeRole → String
  | .MASTER => "master"
  | .SLAVE => "slave"

/-- Embedding of `cacheEntryType` (server.go line 39).  The Go type is an `int` with the
two constants `ENTRY_STRING` and `ENTRY_STREAM`; these are the only values the
program ever constructs, so the model is the two-element enumeration. -/
inductive cacheEntryType where
  | ENTRY_STRING
  | ENTRY_STREAM
deriving DecidableEq

/-- Embedding of `cacheEntryType.String` (server.go lines 41-50). -/
def cacheEntryType.typeString : cacheEntryType → String
  | .ENTRY_STRING => "string"
  | .ENTRY_STREAM => "stream"

/-- Embedding of `streamId` (server.go lines 91-94); Go `int` fields. -/
structure streamId where
  msTime : Int
  sequenceNumber : Int
deriving DecidableEq

/-- Embedding of `streamEntry` (server.go lines 114-116). -/
structure streamEntry where
  id : streamId
deriving DecidableEq

/-- Embedding of `Stream` (server.go lines 118-120). -/
structure Stream where
  entries : List streamEntry
deriving DecidableEq

/-- Digit-run value used by the `strconv.Atoi` model. -/
def digitsVal (cs : List Char) : Option Nat :=
  if cs = [] then none
  else if cs.all Char.isDigit then
    some (cs.foldl (fun a c => a * 10 + (c.toNat - '0'.toNat)) 0)
  else none

/-- Model of `strconv.Atoi`: optional sign followed by at least one digit;
`none` is the error case. -/
def goAtoi (s : String) : Option Int :=
  match s.data with
  | '-' :: rest => (digitsVal rest).map (fun n => -(n : Int))
  | '+' :: rest => (digitsVal rest).map (fun n => (n : Int))
  | cs => (digitsVal cs).map (fun n => (n : Int))

/-- Model of `strconv.Atoi` with the error ignored, as the callers in server.go do:
the accompanying value of an errored conversion is `0`. -/
def goAtoiVal (s : String) : Int :=
  (goAtoi s).getD 0

/-- Model of `strings.Split` at separator `-` (single-character separator). -/
def splitDash : List Char → List (List Char)
  | [] => [[]]
  | c :: rest =>
    let r := splitDash rest
    if c = '-' then [] :: r
    else
      match r with
      | h :: t => (c :: h) :: t
      | [] => [[c]]

/-- Embedding of `streamIdFromString` (server.go lines 96-108). -/
def streamIdFromString (id : String) : streamId :=
  match splitDash id.data with
  | a :: b :: _ => ⟨goAtoiVal (String.mk a), goAtoiVal (String.mk b)⟩
  | _ => ⟨0, 0⟩

/-- Embedding of `Stream.top` (server.go lines 134-140): the last entry, if any. -/
def Stream.top (s : Stream) : Option streamEntry :=
  s.entries.getLast?

/-- Embedding of `Stream.append` (server.go lines 122-132).  The Go method has a value
receiver, so the `append` to `s.entries` mutates a local copy that the caller
never sees; the `ok` payload below is that local copy, and the only
information flowing back to Go callers is the error.  Note the condition the
source tests: `latest.id.msTime > id.msTime`, i.e. the stored top must be
strictly NEWER than the incoming id on the millisecond component. -/
def Stream.append (s : Stream) (input : String) : Except String Stream :=
  let id := streamIdFromString input
  match s.top with
  | none => .ok ⟨s.entries ++ [⟨id⟩]⟩
  | some latest =>
    if latest.id.msTime > id.msTime ∨
        (latest.id.msTime = id.msTime ∧ latest.id.sequenceNumber < id.sequenceNumber) then
      .ok ⟨s.entries ++ [⟨id⟩]⟩
    else
      .error "invalid entry"

/-! The dynamic type of a `cacheEntry.value` (Go `any`) is mutually defined
with `cacheEntry`: the program stores Go strings (SET), `Stream` values, and,
in `handleCommandStreamAdd`, whole `cacheEntry` records (the handler passes
its local `cacheEntry` as the `val` argument of `setKey`, which wraps it in a
further `cacheEntry`). -/

mutual

/-- Values storable in the cache (the Go `any` field). -/
inductive cacheValue where
  | str (s : String)
  | stream (st : Stream)
  | entry (e : cacheEntry)

/-- Embedding of `cacheEntry` (server.go lines 52-56).  `exp` models the
`time.Time` expiration as an integer instant, with `0` for the zero
`time.Time` (the `IsZero` test of the source). -/
inductive cacheEntry where
  | mk (value : cacheValue) (exp : Int) (entryType : cacheEntryType)

end

/-- Field `value` of `cacheEntry`. -/
def cacheEntry.value : cacheEntry → cacheValue
  | .mk v _ _ => v

/-- Field `exp` of `cacheEntry`. -/
def cacheEntry.exp : cacheEntry → Int
  | .mk _ e _ => e

/-- Field `entryType` of `cacheEntry`. -/
def cacheEntry.entryType : cacheEntry → cacheEntryType
  | .mk _ _ t => t

/-- Embedding of `nodeInfo` (server.go lines 29-37).  `replicas` keeps the length of the
Go slice of replica connections (the only observations the program makes of
it are `append` and `len`). -/
structure nodeInfo where
  id : String
  offset : Int
  port : String
  role : nodeRole
  masterHost : String
  replicas : Nat

/-- The mutable globals of server.go (`cache`, `node`, `config`) together
with the current wall clock (`time.Now()` as an integer instant). -/
structure ServerState where
  cache : String → Option cacheEntry
  node : nodeInfo
  config : String → Option String
  now : Int

/-- Embedding of `NULL_RESP` (server.go line 146). -/
def NULL_RESP : List Char := "$-1\r\n".data

/-- Embedding of `EMPTY_RDB` (server.go line 24), a hex string. -/
def EMPTY_RDB : String := "524544495330303131fa0972656469732d76657205372e322e30fa0a72656469732d62697473c040fa056374696d65c26d08bc65fa08757365642d6d656dc2b0c41000fa08616f662d62617365c000fff06e3bfec0ff5aa2"

/-- Value of one hex digit (`encoding/hex`). -/
def hexVal (c : Char) : Option Nat :=
  if '0' ≤ c ∧ c ≤ '9' then some (c.toNat - '0'.toNat)
  else if 'a' ≤ c ∧ c ≤ 'f' then some (c.toNat - 'a'.toNat + 10)
  else if 'A' ≤ c ∧ c ≤ 'F' then some (c.toNat - 'A'.toNat + 10)
  else none

/-- Model of `hex.DecodeString`: pairs of hex digits to bytes. -/
def hexDecode : List Char → Option (List Char)
  | [] => some []
  | c1 :: c2 :: rest =>
    match hexVal c1, hexVal c2, hexDecode rest with
    | some h, some l, some r => some (Char.ofNat (h * 16 + l) :: r)
    | _, _, _ => none
  | [_] => none

/-- ASCII `strings.ToUpper`. -/
def goToUpper (s : String) : String :=
  String.mk (s.data.map Char.toUpper)

/-- ASCII `strings.ToLower`. -/
def goToLower (s : String) : String :=
  String.mk (s.data.map Char.toLower)

/-- The Go type assertion `Content.(string)` on a `Resp`: defined exactly when
the dynamic type of `Content` is `string` (simple strings, bulk strings and
errors); `none` is the panic case. -/
def contentStr : Resp → Option String
  | .simple s => some s
  | .bulk s => some s
  | .error s => some s
  | _ => none

/-- The Go interface comparison `Content == "lit"` on a `Resp`: true exactly
when the dynamic type is `string` and the values agree (comparison with a
different dynamic type is simply false). -/
def contentIsStr (r : Resp) (t : String) : Bool :=
  contentStr r = some t

/-! ### Command handlers (server.go lines 292-487) -/

/-- Result record of one command handler: the returned bytes (`none` for a
Go `nil` slice), the successor state, the writes the handler itself performed
on the current connection (only `handleCommandSync` writes), and the bytes it
broadcast to every replica connection (only `handleCommandSet` on a master
broadcasts). -/
structure HandlerOut where
  out : Option (List Char)
  st : ServerState
  connWrites : List (List Char)
  bcast : Option (List Char)

/-- Outcome of a handler: normal return, error return, or runtime panic. -/
inductive HResult where
  | ok (o : HandlerOut)
  | err (msg : String)
  | panic

/-- Embedding of `replicaMustRespond` (server.go lines 292-299).  `cmd[0]` and `cmd[1]` are
unguarded index expressions; `&&` short-circuits, so `cmd[1]` is only reached
when `cmd[0].Content == "REPLCONF"`. -/
def replicaMustRespond (input : Resp) : PResult Bool :=
  match input with
  | .array cmd =>
    match cmd.head? with
    | none => .panic
    | some c0 =>
      if contentIsStr c0 "REPLCONF" then
        match cmd.get? 1 with
        | none => .panic
        | some c1 => .ok (contentIsStr c1 "GETACK")
      else .ok false
  | _ => .ok false

/-- Embedding of `handleCommandGet` (server.go lines 386-404).  The final
`EncodeResp(stored.value, utils.STRING)` performs `val.(string)`, a panic when
the stored value is a `Stream`. -/
def handleCommandGet (cmd : List Resp) (st : ServerState) : HResult :=
  match cmd with
  | [] => .err "error GET, was expecting more arguments"
  | c0 :: _ =>
    match contentStr c0 with
    | none => .panic
    | some key =>
      match st.cache key with
      | none => .ok ⟨some NULL_RESP, st, [], none⟩
      | some stored =>
        if stored.exp ≠ 0 ∧ st.now > stored.exp then
          .ok ⟨some NULL_RESP,
               { st with cache := fun k => if k = key then none else st.cache k }, [], none⟩
        else
          match stored.value with
          | .str s => .ok ⟨some (encodeString s), st, [], none⟩
          | _ => .panic

/-- Embedding of `handleCommandSet` (server.go lines 356-384). -/
def handleCommandSet (cmd : List Resp) (st : ServerState) : HResult :=
  match cmd with
  | c0 :: c1 :: _ =>
    let exp : Int :=
      match cmd.get? 3 with
      | some (.bulk s3) =>
        match goAtoi s3 with
        | some v => st.now + v
        | none => 0
      | _ => 0
    match contentStr c0, contentStr c1 with
    | some key, some val =>
      let entry : cacheEntry := ⟨.str val, exp, .ENTRY_STRING⟩
      let st1 : ServerState :=
        { st with cache := fun k => if k = key then some entry else st.cache k }
      let bcast : Option (List Char) :=
        if st.node.role = .MASTER then some (EncodeResp (.array (.bulk "SET" :: cmd)))
        else none
      .ok ⟨some (encodeSimpleString "OK"), st1, [], bcast⟩
    | _, _ => .panic
  | _ => .err "error SET, was expecting more arguments"

/-- Embedding of `handleCommandStreamAdd` (server.go lines 335-354).  The error of
`append` is discarded and the append itself acts on a copy (value receiver),
so the reply is unconditionally the id and the stored stream is unchanged. -/
def handleCommandStreamAdd (cmd : List Resp) (st : ServerState) : HResult :=
  match cmd with
  | c0 :: c1 :: _ =>
    match contentStr c0, contentStr c1 with
    | some key, some id =>
      let lookup : cacheEntry × ServerState :=
        match st.cache key with
        | some e => (e, st)
        | none =>
          let streamVar : cacheEntry := ⟨.stream ⟨[]⟩, 0, .ENTRY_STREAM⟩
          (streamVar,
           { st with cache := fun k =>
               if k = key then some ⟨.entry streamVar, 0, .ENTRY_STREAM⟩ else st.cache k })
      match lookup.1.value with
      | .stream s =>
        let _ := s.append id
        .ok ⟨some (encodeString id), lookup.2, [], none⟩
      | _ => .panic
    | _, _ => .panic
  | _ => .err "error SET, was expecting more arguments"

/-- Embedding of `handleCommandConfig` (server.go lines 464-475). -/
def handleCommandConfig (cmd : List Resp) (st : ServerState) : HResult :=
  match cmd with
  | c0 :: c1 :: _ =>
    if ¬ contentIsStr c0 "GET" then .ok ⟨some NULL_RESP, st, [], none⟩
    else
      match contentStr c1 with
      | none => .panic
      | some key =>
        match st.config key with
        | none => .ok ⟨some NULL_RESP, st, [], none⟩
        | some entry =>
          .ok ⟨some (EncodeResp (.array [c1, .bulk entry])), st, [], none⟩
  | _ => .ok ⟨some NULL_RESP, st, [], none⟩

/-- Embedding of `handleCommandInfo` (server.go lines 410-422). -/
def handleCommandInfo (cmd : List Resp) (st : ServerState) : HResult :=
  match cmd with
  | [] => .ok ⟨some NULL_RESP, st, [], none⟩
  | c0 :: _ =>
    if ¬ contentIsStr c0 "replication" then .ok ⟨some NULL_RESP, st, [], none⟩
    else
      let base := "role:" ++ st.node.role.string ++ "\n"
      let resp :=
        if st.node.role = .MASTER then
          base ++ "master_replid:" ++ st.node.id ++ "\nmaster_repl_offset:" ++
            toString st.node.offset ++ "\n"
        else base
      .ok ⟨some (encodeString resp), st, [], none⟩

/-- The `REPLCONF ACK <offset>` reply array built at server.go lines 431-435. -/
def ackReply (st : ServerState) : List Char :=
  EncodeResp (.array [.bulk "REPLCONF", .bulk "ACK", .bulk (toString st.node.offset)])

/-- The FULLRESYNC simple string written at server.go lines 442-450. -/
def fullresyncMsg (st : ServerState) : List Char :=
  encodeSimpleString ("FULLRESYNC " ++ st.node.id ++ " " ++ toString st.node.offset)

/-- Embedding of `handleCommandReplConfig` (server.go lines 424-439).  `cmd[0]` is an
unguarded index expression. -/
def handleCommandReplConfig (cmd : List Resp) (st : ServerState) : HResult :=
  match cmd with
  | [] => .panic
  | c0 :: _ =>
    match contentStr c0 with
    | none => .panic
    | some s =>
      let subCmd := goToLower s
      if subCmd = "listening-port" ∨ subCmd = "capa" then
        .ok ⟨some (encodeSimpleString "OK"), st, [], none⟩
      else if subCmd = "getack" then
        .ok ⟨some (ackReply st), st, [], none⟩
      else .ok ⟨none, st, [], none⟩

/-- Embedding of `handleCommandSync` (server.go lines 441-462): writes the FULLRESYNC
simple string straight to the connection, registers the connection as a
replica and returns the RDB payload as the reply bytes. -/
def handleCommandSync (_cmd : List Resp) (st : ServerState) : HResult :=
  match hexDecode EMPTY_RDB.data with
  | none => .err "hex decode error"
  | some decoded =>
    .ok ⟨some (EncodeRdb decoded),
         { st with node := { st.node with replicas := st.node.replicas + 1 } },
         [fullresyncMsg st], none⟩

/-- Embedding of `handleCommandWait` (server.go lines 406-408). -/
def handleCommandWait (_cmd : List Resp) (st : ServerState) : HResult :=
  .ok ⟨some (encodeInt st.node.replicas), st, [], none⟩

/-- Embedding of `handleCommandType` (server.go lines 477-487).  `cmd[0]` is an unguarded
index expression, and the present-key reply is encoded with `utils.STRING`,
i.e. as a bulk string. -/
def handleCommandType (cmd : List Resp) (st : ServerState) : HResult :=
  match cmd with
  | [] => .panic
  | c0 :: _ =>
    match contentStr c0 with
    | none => .panic
    | some key =>
      match st.cache key with
      | none => .ok ⟨some (encodeSimpleString "none"), st, [], none⟩
      | some val => .ok ⟨some (encodeString val.entryType.typeString), st, [], none⟩

/-- Embedding of `handleCommand` (server.go lines 301-333): dispatch on the upper-cased
first element.  `cmd[0]` is an unguarded index expression and
`cmd[0].Content.(string)` an unguarded type assertion; `ECHO` accesses
`cmd[1]` unguarded. -/
def handleCommand (input : Resp) (st : ServerState) : HResult :=
  match input with
  | .array cmd =>
    match cmd.head? with
    | none => .panic
    | some c0 =>
      match contentStr c0 with
      | none => .panic
      | some s =>
        let u := goToUpper s
        if u = "PING" then .ok ⟨some (encodeSimpleString "PONG"), st, [], none⟩
        else if u = "ECHO" then
          match cmd.get? 1 with
          | none => .panic
          | some c1 =>
            match contentStr c1 with
            | none => .panic
            | some e => .ok ⟨some (encodeString e), st, [], none⟩
        else if u = "GET" then handleCommandGet (cmd.drop 1) st
        else if u = "SET" then handleCommandSet (cmd.drop 1) st
        else if u = "CONFIG" then handleCommandConfig (cmd.drop 1) st
        else if u = "INFO" then handleCommandInfo (cmd.drop 1) st
        else if u = "REPLCONF" then handleCommandReplConfig (cmd.drop 1) st
        else if u = "PSYNC" then handleCommandSync (cmd.drop 1) st
        else if u = "WAIT" then handleCommandWait (cmd.drop 1) st
        else if u = "TYPE" then handleCommandType (cmd.drop 1) st
        else if u = "XADD" then handleCommandStreamAdd (cmd.drop 1) st
        else .ok ⟨none, st, [], none⟩
  | _ => .err "invalid client input, was expecting array"

/-! ### Per-frame body of the connection loop (server.go lines 266-288) -/

/-- Result of processing one successfully parsed frame: the bytes written on
this connection (handler-internal writes followed by the gated reply, with a
Go `nil` write contributing nothing) and the successor state. -/
structure StepOut where
  wrote : List Char
  st : ServerState

/-- Outcome of one loop iteration on a parsed frame. -/
inductive StepResult where
  | ok (o : StepOut)
  | panic

/-- Body of the read loop of `handleClientConn` for one successfully parsed
frame (server.go lines 275-287): run the handler (an error `continue`s with
nothing written and no offset change), write the reply unless the connection
is the master link and `replicaMustRespond` denies it (`||` short-circuits,
so the predicate only runs when `fromMaster` is true), then add
`offset - 1` to the node offset when the node is a slave.  `consumed` is the
count `ParseResp` returned for this frame. -/
def processParsed (fromMaster : Bool) (parsed : Resp) (consumed : Int)
    (st : ServerState) : StepResult :=
  match handleCommand parsed st with
  | .panic => .panic
  | .err _ => .ok ⟨[], st⟩
  | .ok o =>
    let gate : PResult Bool :=
      match fromMaster with
      | false => .ok true
      | true => replicaMustRespond parsed
    match gate with
    | .panic => .panic
    | .err _ => .panic
    | .ok g =>
      let wrote := o.connWrites.flatten ++ (if g then (o.out.getD []) else [])
      let st2 :=
        if o.st.node.role = .SLAVE then
          { o.st with node := { o.st.node with offset := o.st.node.offset + consumed - 1 } }
        else o.st
      .ok ⟨wrote, st2⟩


/-! ### Auxiliary definitions used by the statements below -/

/-- True when `handleCommand` dispatches the frame to `handleCommandSync`:
an array whose first element content is a string upper-casing to PSYNC. -/
def dispatchesPsync (parsed : Resp) : Bool :=
  match parsed with
  | .array (c0 :: _) =>
    match contentStr c0 with
    | some s => goToUpper s = "PSYNC"
    | none => false
  | _ => false

/-- The decoded `EMPTY_RDB` payload. -/
def EMPTY_RDB_BYTES : List Char :=
  (hexDecode EMPTY_RDB.data).getD []

/-- The frame a master sends to request an acknowledgement. -/
def getackFrame : Resp :=
  .array [.bulk "REPLCONF", .bulk "GETACK"]

def emptyCache : String → Option cacheEntry := fun _ => none

/-- A freshly initialised master node state. -/
def masterState : ServerState :=
  ⟨emptyCache, ⟨"", 0, "6379", .MASTER, "", 0⟩, fun _ => none, 0⟩

/-- A freshly initialised replica node state. -/
def slaveState : ServerState :=
  ⟨emptyCache, ⟨"", 0, "6380", .SLAVE, "localhost:6379", 0⟩, fun _ => none, 0⟩

/-- The local cache entry `handleCommandStreamAdd` builds for an absent key
(the `stream` variable of server.go lines 345-348). -/
def freshStreamEntry : cacheEntry := ⟨.stream ⟨[]⟩, 0, .ENTRY_STREAM⟩

/-- What `setKey` actually stores for that key: the local entry wrapped as
the `value` of a further entry (server.go lines 71-82 with `val = stream`). -/
def storedStreamEntry : cacheEntry := ⟨.entry freshStreamEntry, 0, .ENTRY_STREAM⟩

/-- State after `XADD s 1-1` on the fresh master state. -/
def stX1 : ServerState :=
  { masterState with
    cache := fun k => if k = "s" then some storedStreamEntry else masterState.cache k }

/-- A string entry with expiration instant 5. -/
def c5entry : cacheEntry := ⟨.str "v", 5, .ENTRY_STRING⟩

/-- A state holding `c5entry` under key `k`, observed at time 10. -/
def stC5 : ServerState :=
  { masterState with
    cache := fun k => if k = "k" then some c5entry else none
    now := 10 }

/-- A string entry that never expires. -/
def c8entry : cacheEntry := ⟨.str "v", 0, .ENTRY_STRING⟩

/-- A state holding the string entry `c8entry` under key `k`. -/
def stC8 : ServerState :=
  { masterState with cache := fun k => if k = "k" then some c8entry else none }

/-- State of the fresh replica after processing a PSYNC frame whose reported
consumed count is 31. -/
def stAfterPsync : ServerState :=
  { slaveState with
    node := { slaveState.node with
      replicas := 1
      offset := slaveState.node.offset + 31 - 1 } }

/-! ### Claim theorems -/

/-- C1: the claim states `decode(encode(f)) = (f, len(encode(f)), nil)` for
every well-formed frame.  The code falsifies it on every frame kind: the
simple string OK decodes to a truncated payload O with consumed count 6
against an encoding of length 5; the bulk string hello round-trips its
payload but reports 10 consumed bytes against an encoding of length 11; an
integer frame decodes to the zero value with 0 consumed bytes; an array of
bulk strings round-trips its payload but reports 28 consumed bytes against an
encoding of length 27. -/
theorem c1_roundtrip_fails_on_code :
    ParseResp (EncodeResp (.simple "OK")) = .ok (.simple "O", 6) ∧
    (EncodeResp (.simple "OK")).length = 5 ∧
    ParseResp (EncodeResp (.bulk "hello")) = .ok (.bulk "hello", 10) ∧
    (EncodeResp (.bulk "hello")).length = 11 ∧
    ParseResp (EncodeResp (.int 5)) = .ok (.empty, 0) ∧
    (EncodeResp (.int 5)).length = 4 ∧
    ParseResp (EncodeResp (.array [.bulk "SET", .bulk "k", .bulk "v"])) =
      .ok (.array [.bulk "SET", .bulk "k", .bulk "v"], 28) ∧
    (EncodeResp (.array [.bulk "SET", .bulk "k", .bulk "v"])).length = 27 :=
  ⟨rfl, rfl, rfl, rfl, rfl, rfl, rfl, rfl⟩

/-- C2: the claim states the decoder returns the exact byte count a frame
occupies, in particular for bulk strings and arrays of bulk strings.  On the
8-byte buffer holding one bulk string the decoder reports 7 consumed bytes,
and on the 12-byte buffer holding a one-element array of bulk strings it
reports 13, so resuming at `buf[consumed:]` does not land on the first byte
after the frame in either case. -/
theorem c2_consumed_count_inexact :
    ParseResp "$2\r\nhi\r\n".data = .ok (.bulk "hi", 7) ∧
    "$2\r\nhi\r\n".length = 8 ∧
    ParseResp "*1\r\n$2\r\nhi\r\n".data = .ok (.array [.bulk "hi"], 13) ∧
    "*1\r\n$2\r\nhi\r\n".length = 12 :=
  ⟨rfl, rfl, rfl, rfl⟩

/-- C3: the claim states append on a non-empty stream succeeds exactly when
the new id is strictly greater than the top.  The code has the millisecond
comparison inverted: with top 2-0 it rejects the strictly greater id 3-0
with the invalid-entry error and accepts the strictly smaller id 1-0; only
appends on an empty stream behave as claimed. -/
theorem c3_append_ms_comparison_inverted :
    Stream.append ⟨[⟨⟨2, 0⟩⟩]⟩ "3-0" = .error "invalid entry" ∧
    Stream.append ⟨[⟨⟨2, 0⟩⟩]⟩ "1-0" = .ok ⟨[⟨⟨2, 0⟩⟩, ⟨⟨1, 0⟩⟩]⟩ ∧
    Stream.append ⟨[⟨⟨2, 0⟩⟩]⟩ "2-1" = .ok ⟨[⟨⟨2, 0⟩⟩, ⟨⟨2, 1⟩⟩]⟩ ∧
    Stream.append ⟨[⟨⟨2, 0⟩⟩]⟩ "2-0" = .error "invalid entry" ∧
    Stream.append ⟨[]⟩ "1-1" = .ok ⟨[⟨⟨1, 1⟩⟩]⟩ :=
  ⟨rfl, rfl, rfl, rfl, rfl⟩

/-- C4: the claim states XADD replies with an error exactly when the id
regresses, and that a successful append becomes the new top.  The code
discards the append error, the value-receiver append never mutates the
stored stream, and `setKey` is handed the whole local `cacheEntry` as the
value, so the stored value is a nested `cacheEntry` rather than a `Stream`:
the first `XADD s 1-1` replies with the bulk string 1-1 while storing an
empty wrapped stream, and the repeated `XADD s 1-1` panics on the
`.(Stream)` type assertion instead of replying with an error. -/
theorem c4_xadd_never_errors :
    handleCommandStreamAdd [.bulk "s", .bulk "1-1"] masterState =
      .ok ⟨some (encodeString "1-1"), stX1, [], none⟩ ∧
    handleCommandStreamAdd [.bulk "s", .bulk "1-1"] stX1 = .panic ∧
    stX1.cache "s" = some storedStreamEntry ∧
    storedStreamEntry.value = .entry freshStreamEntry ∧
    freshStreamEntry.value = .stream ⟨[]⟩ :=
  ⟨rfl, rfl, rfl, rfl, rfl⟩

/-- C9: the claim states a simple-string frame with a CR-LF-free payload
decodes to the full payload with consumed count `1 + len(payload) + 2`.  The
scan loop of the source stops one byte early: `+PONG CRLF` decodes to the
payload PON with consumed count 8 instead of PONG with 7, and the frame with
the empty payload makes the source slice with a negative index, a panic. -/
theorem c9_simple_string_truncated :
    ParseResp "+PONG\r\n".data = .ok (.simple "PON", 8) ∧
    "+PONG\r\n".length = 7 ∧
    ParseResp "+\r\n".data = .panic :=
  ⟨rfl, rfl, rfl⟩

/-- C10 counterexample: the claim states dispatching an empty array frame
completes without an out-of-bounds element access; in fact `handleCommand`
reads `cmd[0]` of the empty command slice, a panic. -/
theorem c10_counterexample_empty_array :
    handleCommand (.array []) masterState = .panic :=
  rfl

/-- C10 amended: each of the listed inputs performs an out-of-bounds element
access: the empty array in `handleCommand`, ECHO without an argument,
REPLCONF without a subcommand (inside `handleCommandReplConfig`), TYPE
without a key (inside `handleCommandType`), and the one-element REPLCONF
array inside `replicaMustRespond`. -/
theorem c10_missing_argument_accesses_panic :
    handleCommand (.array []) masterState = .panic ∧
    handleCommand (.array [.bulk "ECHO"]) masterState = .panic ∧
    handleCommand (.array [.bulk "REPLCONF"]) masterState = .panic ∧
    handleCommand (.array [.bulk "TYPE"]) masterState = .panic ∧
    replicaMustRespond (.array [.bulk "REPLCONF"]) = .panic :=
  ⟨rfl, rfl, rfl, rfl, rfl⟩

/-- C8 counterexample: the claim states every TYPE reply is a simple string
with payload none, string or stream.  On a present string key the code
replies with the BULK string encoding of the kind, which differs from all
three claimed simple-string replies. -/
theorem c8_counterexample_bulk_reply :
    handleCommandType [.bulk "k"] stC8 = .ok ⟨some (encodeString "string"), stC8, [], none⟩ ∧
    encodeString "string" ≠ encodeSimpleString "none" ∧
    encodeString "string" ≠ encodeSimpleString "string" ∧
    encodeString "string" ≠ encodeSimpleString "stream" :=
  ⟨rfl, by decide, by decide, by decide⟩

/-- C8 amended: the TYPE reply is the simple string none for an absent key,
and for a present key the BULK string whose payload is the kind of the
entry, one of string or stream. -/
theorem c8_type_reply_kinds (st : ServerState) (key : String) (rest : List Resp) :
    (st.cache key = none →
      handleCommandType (.bulk key :: rest) st =
        .ok ⟨some (encodeSimpleString "none"), st, [], none⟩) ∧
    (∀ e, st.cache key = some e →
      handleCommandType (.bulk key :: rest) st =
        .ok ⟨some (encodeString e.entryType.typeString), st, [], none⟩ ∧
      (e.entryType.typeString = "string" ∨ e.entryType.typeString = "stream")) := by
  constructor
  · intro h
    simp only [handleCommandType, contentStr]
    rw [h]
  · intro e h
    refine ⟨?_, ?_⟩
    · simp only [handleCommandType, contentStr]
      rw [h]
    · cases he : e.entryType <;> simp [cacheEntryType.typeString]

/-- C8 amended, applied to a state holding a string entry under key k. -/
theorem c8_type_reply_kinds_witness :
    handleCommandType (.bulk "k" :: []) stC8 =
      .ok ⟨some (encodeString c8entry.entryType.typeString), stC8, [], none⟩ ∧
    (c8entry.entryType.typeString = "string" ∨ c8entry.entryType.typeString = "stream") :=
  (c8_type_reply_kinds stC8 "k" []).2 c8entry rfl

/-- C5: a stored string entry with zero expiration is returned whatever the
clock says; a non-zero expiration strictly in the past makes GET delete the
entry and reply with the null bulk string; a non-zero expiration strictly in
the future makes GET return the value and leave the state unchanged. -/
theorem c5_get_respects_expiration (st : ServerState) (key s : String) (e : cacheEntry)
    (hlook : st.cache key = some e) (hval : e.value = .str s) :
    (e.exp = 0 →
      handleCommandGet [.bulk key] st = .ok ⟨some (encodeString s), st, [], none⟩) ∧
    (e.exp ≠ 0 → st.now > e.exp →
      handleCommandGet [.bulk key] st =
        .ok ⟨some NULL_RESP,
             { st with cache := fun k => if k = key then none else st.cache k }, [], none⟩) ∧
    (e.exp ≠ 0 → st.now < e.exp →
      handleCommandGet [.bulk key] st = .ok ⟨some (encodeString s), st, [], none⟩) := by
  refine ⟨fun h0 => ?_, fun hne hafter => ?_, fun hne hbefore => ?_⟩ <;>
    simp only [handleCommandGet, contentStr] <;> rw [hlook] <;> dsimp only
  · rw [if_neg (fun hcon => hcon.1 h0), hval]
  · rw [if_pos ⟨hne, hafter⟩]
  · rw [if_neg (fun hcon => absurd hcon.2 (by omega)), hval]

/-- C5 applied to a state whose entry under k has expiration 5, read at
time 10: the entry is deleted and the null bulk string returned. -/
theorem c5_get_respects_expiration_witness :
    stC5.cache "k" = some c5entry ∧ c5entry.value = .str "v" ∧
    c5entry.exp ≠ 0 ∧ stC5.now > c5entry.exp ∧
    handleCommandGet [.bulk "k"] stC5 =
      .ok ⟨some NULL_RESP,
           { stC5 with cache := fun k => if k = "k" then none else stC5.cache k }, [], none⟩ :=
  ⟨rfl, rfl, by decide, by decide,
    (c5_get_respects_expiration stC5 "k" "v" c5entry rfl rfl).2.1 (by decide) (by decide)⟩

/-! ### Invariants of the command handlers used by the connection-loop
theorems: no handler except PSYNC writes to the connection itself, and no
handler changes the node role or offset. -/

theorem handleCommandGet_inv (cmd : List Resp) (st : ServerState) (o : HandlerOut)
    (h : handleCommandGet cmd st = .ok o) :
    o.connWrites = [] ∧ o.st.node = st.node := by
  unfold handleCommandGet at h
  iterate 6 (all_goals try split at h)
  all_goals cases h <;> exact ⟨rfl, rfl⟩

theorem handleCommandSet_inv (cmd : List Resp) (st : ServerState) (o : HandlerOut)
    (h : handleCommandSet cmd st = .ok o) :
    o.connWrites = [] ∧ o.st.node = st.node := by
  unfold handleCommandSet at h
  iterate 6 (all_goals try split at h)
  all_goals cases h <;> exact ⟨rfl, rfl⟩

theorem handleCommandStreamAdd_inv (cmd : List Resp) (st : ServerState) (o : HandlerOut)
    (h : handleCommandStreamAdd cmd st = .ok o) :
    o.connWrites = [] ∧ o.st.node = st.node := by
  unfold handleCommandStreamAdd at h
  iterate 6 (all_goals (try dsimp only at h); all_goals try split at h)
  all_goals cases h <;> exact ⟨rfl, rfl⟩

theorem handleCommandConfig_inv (cmd : List Resp) (st : ServerState) (o : HandlerOut)
    (h : handleCommandConfig cmd st = .ok o) :
    o.connWrites = [] ∧ o.st.node = st.node := by
  unfold handleCommandConfig at h
  iterate 6 (all_goals try split at h)
  all_goals cases h <;> exact ⟨rfl, rfl⟩

theorem handleCommandInfo_inv (cmd : List Resp) (st : ServerState) (o : HandlerOut)
    (h : handleCommandInfo cmd st = .ok o) :
    o.connWrites = [] ∧ o.st.node = st.node := by
  unfold handleCommandInfo at h
  iterate 6 (all_goals try split at h)
  all_goals (cases h; try exact ⟨rfl, rfl⟩)

theorem handleCommandReplConfig_inv (cmd : List Resp) (st : ServerState) (o : HandlerOut)
    (h : handleCommandReplConfig cmd st = .ok o) :
    o.connWrites = [] ∧ o.st.node = st.node := by
  unfold handleCommandReplConfig at h
  iterate 6 (all_goals (try dsimp only at h); all_goals try split at h)
  all_goals cases h <;> exact ⟨rfl, rfl⟩

theorem handleCommandWait_inv (cmd : List Resp) (st : ServerState) (o : HandlerOut)
    (h : handleCommandWait cmd st = .ok o) :
    o.connWrites = [] ∧ o.st.node = st.node := by
  unfold handleCommandWait at h
  cases h
  exact ⟨rfl, rfl⟩

theorem handleCommandType_inv (cmd : List Resp) (st : ServerState) (o : HandlerOut)
    (h : handleCommandType cmd st = .ok o) :
    o.connWrites = [] ∧ o.st.node = st.node := by
  unfold handleCommandType at h
  iterate 6 (all_goals try split at h)
  all_goals cases h <;> exact ⟨rfl, rfl⟩

theorem handleCommandSync_inv (cmd : List Resp) (st : ServerState) (o : HandlerOut)
    (h : handleCommandSync cmd st = .ok o) :
    o.connWrites = [fullresyncMsg st] ∧ o.st.node.role = st.node.role ∧
      o.st.node.offset = st.node.offset := by
  unfold handleCommandSync at h
  split at h
  all_goals cases h
  exact ⟨rfl, rfl, rfl⟩

/-- Fact: `handleCommand` dispatches an array frame with a string first element to
the PSYNC handler exactly when that element upper-cases to PSYNC. -/
theorem dispatchesPsync_cons (c0 : Resp) (rest : List Resp) (s : String)
    (hc : contentStr c0 = some s) :
    dispatchesPsync (.array (c0 :: rest)) = decide (goToUpper s = "PSYNC") := by
  simp [dispatchesPsync, hc]

/-- Central invariant of `handleCommand`: a normal return preserves the node
role and offset, and the handler writes nothing to the connection itself
unless the frame dispatches to PSYNC, in which case it writes exactly the
FULLRESYNC message. -/
theorem handleCommand_ok_inv (input : Resp) (st : ServerState) (o : HandlerOut)
    (h : handleCommand input st = .ok o) :
    o.st.node.role = st.node.role ∧ o.st.node.offset = st.node.offset ∧
    (dispatchesPsync input = false → o.connWrites = []) ∧
    (dispatchesPsync input = true → o.connWrites = [fullresyncMsg st]) := by
  cases input with
  | simple s => exact absurd h (by simp [handleCommand])
  | bulk s => exact absurd h (by simp [handleCommand])
  | int n => exact absurd h (by simp [handleCommand])
  | error s => exact absurd h (by simp [handleCommand])
  | empty => exact absurd h (by simp [handleCommand])
  | array cmd =>
    cases cmd with
    | nil => exact absurd h (by simp [handleCommand])
    | cons c0 rest =>
      simp only [handleCommand, List.head?_cons] at h
      rcases hc : contentStr c0 with _ | s <;> rw [hc] at h <;> dsimp only at h
      · cases h
      · rw [dispatchesPsync_cons c0 rest s hc]
        by_cases h1 : goToUpper s = "PING"
        · rw [if_pos h1] at h
          cases h
          exact ⟨rfl, rfl, fun _ => rfl, fun hp => by simp [h1] at hp⟩
        rw [if_neg h1] at h
        by_cases h2 : goToUpper s = "ECHO"
        · rw [if_pos h2] at h
          rcases rest with _ | ⟨c1, r2⟩ <;> dsimp only [List.get?] at h
          · cases h
          · rcases hc1 : contentStr c1 with _ | e1 <;> rw [hc1] at h <;> dsimp only at h
            · cases h
            · cases h
              exact ⟨rfl, rfl, fun _ => rfl, fun hp => by simp [h2] at hp⟩
        rw [if_neg h2] at h
        by_cases h3 : goToUpper s = "GET"
        · rw [if_pos h3] at h
          obtain ⟨hw, hn⟩ := handleCommandGet_inv _ _ _ h
          exact ⟨by rw [hn], by rw [hn], fun _ => hw, fun hp => by simp [h3] at hp⟩
        rw [if_neg h3] at h
        by_cases h4 : goToUpper s = "SET"
        · rw [if_pos h4] at h
          obtain ⟨hw, hn⟩ := handleCommandSet_inv _ _ _ h
          exact ⟨by rw [hn], by rw [hn], fun _ => hw, fun hp => by simp [h4] at hp⟩
        rw [if_neg h4] at h
        by_cases h5 : goToUpper s = "CONFIG"
        · rw [if_pos h5] at h
          obtain ⟨hw, hn⟩ := handleCommandConfig_inv _ _ _ h
          exact ⟨by rw [hn], by rw [hn], fun _ => hw, fun hp => by simp [h5] at hp⟩
        rw [if_neg h5] at h
        by_cases h6 : goToUpper s = "INFO"
        · rw [if_pos h6] at h
          obtain ⟨hw, hn⟩ := handleCommandInfo_inv _ _ _ h
          exact ⟨by rw [hn], by rw [hn], fun _ => hw, fun hp => by simp [h6] at hp⟩
        rw [if_neg h6] at h
        by_cases h7 : goToUpper s = "REPLCONF"
        · rw [if_pos h7] at h
          obtain ⟨hw, hn⟩ := handleCommandReplConfig_inv _ _ _ h
          exact ⟨by rw [hn], by rw [hn], fun _ => hw, fun hp => by simp [h7] at hp⟩
        rw [if_neg h7] at h
        by_cases h8 : goToUpper s = "PSYNC"
        · rw [if_pos h8] at h
          obtain ⟨hw, hr, ho⟩ := handleCommandSync_inv _ _ _ h
          exact ⟨hr, ho, fun hp => by simp [h8] at hp, fun _ => hw⟩
        rw [if_neg h8] at h
        by_cases h9 : goToUpper s = "WAIT"
        · rw [if_pos h9] at h
          obtain ⟨hw, hn⟩ := handleCommandWait_inv _ _ _ h
          exact ⟨by rw [hn], by rw [hn], fun _ => hw, fun hp => by simp [h9] at hp⟩
        rw [if_neg h9] at h
        by_cases h10 : goToUpper s = "TYPE"
        · rw [if_pos h10] at h
          obtain ⟨hw, hn⟩ := handleCommandType_inv _ _ _ h
          exact ⟨by rw [hn], by rw [hn], fun _ => hw, fun hp => by simp [h10] at hp⟩
        rw [if_neg h10] at h
        by_cases h11 : goToUpper s = "XADD"
        · rw [if_pos h11] at h
          obtain ⟨hw, hn⟩ := handleCommandStreamAdd_inv _ _ _ h
          exact ⟨by rw [hn], by rw [hn], fun _ => hw, fun hp => by simp [h11] at hp⟩
        rw [if_neg h11] at h
        cases h
        exact ⟨rfl, rfl, fun _ => rfl, fun hp => by simp at hp; exact absurd hp h8⟩

/-- Fact: `replicaMustRespond` denies any array frame whose first element content is
a string other than REPLCONF. -/
theorem replicaMustRespond_not_replconf (c0 : Resp) (rest : List Resp) (s : String)
    (hc : contentStr c0 = some s) (hne : s ≠ "REPLCONF") :
    replicaMustRespond (.array (c0 :: rest)) = .ok false := by
  simp only [replicaMustRespond, List.head?_cons]
  rw [if_neg (by simp [contentIsStr, hc]; exact hne)]

/-- Fact: `handleCommandReplConfig` never returns an error. -/
theorem handleCommandReplConfig_no_err (cmd : List Resp) (st : ServerState) (e : String) :
    handleCommandReplConfig cmd st ≠ .err e := by
  intro h
  unfold handleCommandReplConfig at h
  iterate 4 (all_goals (try dsimp only at h); all_goals try split at h)
  all_goals cases h

/-- Fact: `handleCommandSync` never returns an error: the hex literal it decodes is
well-formed. -/
theorem handleCommandSync_no_err (cmd : List Resp) (st : ServerState) (e : String) :
    handleCommandSync cmd st ≠ .err e := by
  unfold handleCommandSync
  rw [show hexDecode EMPTY_RDB.data = some EMPTY_RDB_BYTES from rfl]
  simp

/-- An error return of `handleCommand` (the continue path of the connection
loop) happens only on frames that neither pass the replica gate nor dispatch
to PSYNC. -/
theorem handleCommand_err_inv (input : Resp) (st : ServerState) (e : String)
    (h : handleCommand input st = .err e) :
    replicaMustRespond input = .ok false ∧ dispatchesPsync input = false := by
  cases input with
  | simple s => exact ⟨rfl, rfl⟩
  | bulk s => exact ⟨rfl, rfl⟩
  | int n => exact ⟨rfl, rfl⟩
  | error s => exact ⟨rfl, rfl⟩
  | empty => exact ⟨rfl, rfl⟩
  | array cmd =>
    cases cmd with
    | nil => exact absurd h (by simp [handleCommand])
    | cons c0 rest =>
      simp only [handleCommand, List.head?_cons] at h
      rcases hc : contentStr c0 with _ | s <;> rw [hc] at h <;> dsimp only at h
      · cases h
      · by_cases h7 : goToUpper s = "REPLCONF"
        · rw [show (if goToUpper s = "PING" then
              HResult.ok ⟨some (encodeSimpleString "PONG"), st, [], none⟩ else
              if goToUpper s = "ECHO" then
                (match (c0 :: rest).get? 1 with
                 | none => HResult.panic
                 | some c1 =>
                   match contentStr c1 with
                   | none => HResult.panic
                   | some e => HResult.ok ⟨some (encodeString e), st, [], none⟩) else
              if goToUpper s = "GET" then handleCommandGet ((c0 :: rest).drop 1) st else
              if goToUpper s = "SET" then handleCommandSet ((c0 :: rest).drop 1) st else
              if goToUpper s = "CONFIG" then handleCommandConfig ((c0 :: rest).drop 1) st else
              if goToUpper s = "INFO" then handleCommandInfo ((c0 :: rest).drop 1) st else
              if goToUpper s = "REPLCONF" then handleCommandReplConfig ((c0 :: rest).drop 1) st else
              if goToUpper s = "PSYNC" then handleCommandSync ((c0 :: rest).drop 1) st else
              if goToUpper s = "WAIT" then handleCommandWait ((c0 :: rest).drop 1) st else
              if goToUpper s = "TYPE" then handleCommandType ((c0 :: rest).drop 1) st else
              if goToUpper s = "XADD" then handleCommandStreamAdd ((c0 :: rest).drop 1) st else
              HResult.ok ⟨none, st, [], none⟩) =
              handleCommandReplConfig ((c0 :: rest).drop 1) st from by
            rw [if_neg (by rw [h7]; decide), if_neg (by rw [h7]; decide),
                if_neg (by rw [h7]; decide), if_neg (by rw [h7]; decide),
                if_neg (by rw [h7]; decide), if_neg (by rw [h7]; decide), if_pos h7]] at h
          exact absurd h (handleCommandReplConfig_no_err _ _ _)
        · have hsne : s ≠ "REPLCONF" := fun hs => by
            rw [hs] at h7; exact h7 (by decide)
          refine ⟨replicaMustRespond_not_replconf c0 rest s hc hsne, ?_⟩
          by_cases h8 : goToUpper s = "PSYNC"
          · exfalso
            rw [if_neg (by rw [h8]; decide), if_neg (by rw [h8]; decide),
                if_neg (by rw [h8]; decide), if_neg (by rw [h8]; decide),
                if_neg (by rw [h8]; decide), if_neg (by rw [h8]; decide),
                if_neg (by rw [h8]; decide), if_pos h8] at h
            exact absurd h (handleCommandSync_no_err _ _ _)
          · rw [dispatchesPsync_cons c0 rest s hc]
            simp [h8]

theorem ackReply_ne_nil (st : ServerState) : ackReply st ≠ [] := by
  simp [ackReply, EncodeResp]

theorem fullresyncMsg_ne_nil (st : ServerState) : fullresyncMsg st ≠ [] := by
  simp [fullresyncMsg, encodeSimpleString]

/-- A frame that passes `replicaMustRespond` is handled by the REPLCONF
GETACK branch: the reply is exactly the ACK array and the state is
unchanged. -/
theorem replicaMustRespond_getack (input : Resp) (st : ServerState)
    (hm : replicaMustRespond input = .ok true) :
    handleCommand input st = .ok ⟨some (ackReply st), st, [], none⟩ := by
  cases input with
  | simple s => exact absurd hm (by simp [replicaMustRespond])
  | bulk s => exact absurd hm (by simp [replicaMustRespond])
  | int n => exact absurd hm (by simp [replicaMustRespond])
  | error s => exact absurd hm (by simp [replicaMustRespond])
  | empty => exact absurd hm (by simp [replicaMustRespond])
  | array cmd =>
    cases cmd with
    | nil => exact absurd hm (by simp [replicaMustRespond])
    | cons c0 rest =>
      simp only [replicaMustRespond, List.head?_cons] at hm
      by_cases hc0 : contentIsStr c0 "REPLCONF" = true
      · rw [if_pos hc0] at hm
        rcases rest with _ | ⟨c1, r2⟩ <;> dsimp only [List.get?] at hm
        · cases hm
        · injection hm with hb
          have hc0s : contentStr c0 = some "REPLCONF" := by
            simpa [contentIsStr] using hc0
          have hc1s : contentStr c1 = some "GETACK" := by
            simpa [contentIsStr] using hb
          have step1 : handleCommand (.array (c0 :: c1 :: r2)) st =
              handleCommandReplConfig (c1 :: r2) st := by
            simp only [handleCommand, List.head?_cons]
            rw [hc0s]
            rfl
          rw [step1]
          simp only [handleCommandReplConfig]
          rw [hc1s]
          rfl
      · rw [if_neg hc0] at hm
        cases hm

/-- C6 amended: on the master link of a replica, bytes go back to the master
exactly when the frame passes the REPLCONF GETACK gate or dispatches to the
PSYNC handler, which writes its FULLRESYNC reply to the connection itself
before the gate is consulted. -/
theorem c6_master_link_gate (parsed : Resp) (consumed : Int) (st : ServerState)
    (w : List Char) (st2 : ServerState)
    (_hrole : st.node.role = .SLAVE)
    (hstep : processParsed true parsed consumed st = .ok ⟨w, st2⟩) :
    w ≠ [] ↔ (replicaMustRespond parsed = .ok true ∨ dispatchesPsync parsed = true) := by
  unfold processParsed at hstep
  rcases hh : handleCommand parsed st with o | e | _ <;> rw [hh] at hstep <;> dsimp only at hstep
  · rcases hg : replicaMustRespond parsed with g | e2 | _ <;> rw [hg] at hstep <;>
      dsimp only at hstep
    · cases hstep
      cases g with
      | true =>
        have ho := replicaMustRespond_getack parsed st hg
        rw [hh] at ho
        injection ho with ho
        subst ho
        exact iff_of_true (by simpa using ackReply_ne_nil st) (Or.inl rfl)
      | false =>
        obtain ⟨-, -, hpsF, hpsT⟩ := handleCommand_ok_inv _ _ _ hh
        cases hp : dispatchesPsync parsed with
        | false =>
          refine iff_of_false (by simp [hpsF hp]) ?_
          rintro (h2 | h2) <;> simp at h2
        | true =>
          exact iff_of_true
            (by simp [hpsT hp, fullresyncMsg_ne_nil])
            (Or.inr rfl)
    · cases hstep
    · cases hstep
  · cases hstep
    obtain ⟨hm, hd⟩ := handleCommand_err_inv _ _ _ hh
    refine iff_of_false (fun hne => hne rfl) ?_
    rintro (h2 | h2)
    · rw [hm] at h2; simp at h2
    · rw [hd] at h2; simp at h2
  · cases hstep

/-- C6 counterexample: the claim says a reply goes back on the master link
only for REPLCONF GETACK; a PSYNC frame is not REPLCONF GETACK, yet
processing it on the master link writes the non-empty FULLRESYNC reply. -/
theorem c6_counterexample_psync_writes :
    processParsed true (.array [.bulk "PSYNC", .bulk "?", .bulk "-1"]) 31 slaveState =
      .ok ⟨fullresyncMsg slaveState, stAfterPsync⟩ ∧
    fullresyncMsg slaveState ≠ [] ∧
    replicaMustRespond (.array [.bulk "PSYNC", .bulk "?", .bulk "-1"]) = .ok false :=
  ⟨rfl, by decide, rfl⟩

/-- C6 amended, applied to a PING frame on the master link of the fresh
replica: nothing is written back. -/
theorem c6_master_link_gate_witness :
    slaveState.node.role = .SLAVE ∧
    processParsed true (.array [.bulk "PING"]) 14 slaveState =
      .ok ⟨[], { slaveState with
        node := { slaveState.node with offset := slaveState.node.offset + 14 - 1 } }⟩ ∧
    (([] : List Char) ≠ [] ↔
      (replicaMustRespond (.array [.bulk "PING"]) = .ok true ∨
       dispatchesPsync (.array [.bulk "PING"]) = true)) :=
  ⟨rfl, rfl,
    c6_master_link_gate (.array [.bulk "PING"]) 14 slaveState []
      { slaveState with
        node := { slaveState.node with offset := slaveState.node.offset + 14 - 1 } }
      rfl rfl⟩

/-- C7 amended: on a replica, every successfully handled frame adds
`consumed - 1` to the node offset whatever connection it arrived on, and the
REPLCONF GETACK frame on the master link is answered with the ACK array
reporting the offset as it stood before this frame was counted. -/
theorem c7_offset_incremented_every_connection (fm : Bool) (parsed : Resp) (consumed : Int)
    (st : ServerState) (o : HandlerOut) (w : List Char) (st2 : ServerState)
    (hrole : st.node.role = .SLAVE)
    (hok : handleCommand parsed st = .ok o)
    (hstep : processParsed fm parsed consumed st = .ok ⟨w, st2⟩) :
    st2.node.offset = st.node.offset + consumed - 1 ∧
    (parsed = getackFrame → fm = true → w = ackReply st) := by
  obtain ⟨hr, hoff, -, -⟩ := handleCommand_ok_inv _ _ _ hok
  unfold processParsed at hstep
  rw [hok] at hstep
  dsimp only at hstep
  constructor
  · rcases hg : (match fm with
        | false => PResult.ok true
        | true => replicaMustRespond parsed) with g | e | _ <;>
      rw [hg] at hstep <;> dsimp only at hstep
    · rw [if_pos (hr.trans hrole)] at hstep
      cases hstep
      simp [hoff]
    · cases hstep
    · cases hstep
  · intro hp hfm
    subst hp
    subst hfm
    have hcmd : handleCommand getackFrame st = .ok ⟨some (ackReply st), st, [], none⟩ := rfl
    rw [hcmd] at hok
    injection hok with hok2
    subst hok2
    rw [show replicaMustRespond getackFrame = PResult.ok true from rfl] at hstep
    dsimp only at hstep
    rw [if_pos (hr.trans hrole)] at hstep
    cases hstep
    simp

/-- C7 counterexample: the claim says frames on ordinary client connections
leave the offset unchanged; processing a PING from an ordinary client
(fromMaster false) on a replica moves the offset by `consumed - 1`. -/
theorem c7_counterexample_client_frame_moves_offset :
    processParsed false (.array [.bulk "PING"]) 14 slaveState =
      .ok ⟨encodeSimpleString "PONG",
           { slaveState with
             node := { slaveState.node with offset := slaveState.node.offset + 14 - 1 } }⟩ ∧
    slaveState.node.offset + 14 - 1 ≠ slaveState.node.offset :=
  ⟨rfl, by decide⟩

/-- C7 amended, applied to the GETACK frame with reported consumed count 37
on the master link of the fresh replica. -/
theorem c7_offset_incremented_witness :
    slaveState.node.role = .SLAVE ∧
    handleCommand getackFrame slaveState =
      .ok ⟨some (ackReply slaveState), slaveState, [], none⟩ ∧
    (({ slaveState with
        node := { slaveState.node with offset := slaveState.node.offset + 37 - 1 } } :
          ServerState).node.offset = slaveState.node.offset + 37 - 1 ∧
      (getackFrame = getackFrame → true = true →
        ackReply slaveState = ackReply slaveState)) :=
  ⟨rfl, rfl,
    c7_offset_incremented_every_connection true getackFrame 37 slaveState
      ⟨some (ackReply slaveState), slaveState, [], none⟩ (ackReply slaveState)
      { slaveState with
        node := { slaveState.node with offset := slaveState.node.offset + 37 - 1 } }
      rfl rfl rfl⟩

end Redis
